import Mathlib

/-!
Shallow embedding of the pr-reviewer service storage layer
(`internal/storage/storage.go` together with the schema in
`migrations/001_init.sql`).

The relational state is embedded as lists of rows in insertion order:
`users`, `teams`, `team_members`, `prs` and `pr_reviewers`.  SQL `Get`
(first row) becomes `List.find?`, `Select` becomes `List.filter`/`List.map`,
`LIMIT n` becomes `List.take n`, and the candidate queries (which carry no
`ORDER BY`) are read in roster enumeration order, the stable order the
service relies on.  Timestamps are natural numbers.  Each storage method
becomes a function from a `DBState` to a result together with the successor
state; the named sentinel errors of the Go code become constructors of
`StoreError` (a failed foreign-key check on `prs.author_id` is modelled as
`FKViolation`).
-/

namespace PRService

structure User where
  userID : String
  username : String
  isActive : Bool
  deriving DecidableEq, Repr

inductive PRStatus
  | OPEN
  | MERGED
  deriving DecidableEq, Repr

structure PullRequest where
  id : String
  title : String
  authorID : String
  status : PRStatus
  createdAt : Nat
  mergedAt : Option Nat
  deriving DecidableEq, Repr

/-- The relational database state: each field is one table, rows listed in
insertion order. -/
structure DBState where
  teams : List String
  users : List User
  teamMembers : List (String × String)
  prs : List PullRequest
  prReviewers : List (String × String)
  deriving DecidableEq, Repr

inductive StoreError
  | TeamExists
  | PRExists
  | NotFound
  | PRMerged
  | NotAssigned
  | NoCandidate
  | AuthorTeamNotFound
  | FKViolation
  deriving DecidableEq, Repr

/-- Embedding of `SELECT ... FROM users WHERE user_id = $1` via `Get`: the
first matching row. -/
def findUser (s : DBState) (uid : String) : Option User :=
  s.users.find? (fun u => u.userID == uid)

/-- Embedding of `SELECT ... FROM prs WHERE pull_request_id = $1` via `Get`. -/
def findPR (s : DBState) (id : String) : Option PullRequest :=
  s.prs.find? (fun p => p.id == id)

/-- Embedding of `SELECT team_name FROM team_members WHERE user_id = $1` via
`Get`: the first membership row of the user. -/
def teamOfUser (s : DBState) (uid : String) : Option String :=
  (s.teamMembers.find? (fun tm => tm.2 == uid)).map (fun tm => tm.1)

/-- The roster of a team in enumeration order: the `user_id`s of the
`team_members` rows of that team. -/
def rosterIDs (s : DBState) (team : String) : List String :=
  (s.teamMembers.filter (fun tm => tm.1 == team)).map (fun tm => tm.2)

/-- Whether the user row with the given id exists and has `is_active = true`
(a join against `users` drops ids with no row). -/
def isActiveUser (s : DBState) (uid : String) : Bool :=
  match findUser s uid with
  | some u => u.isActive
  | none => false

/-- Embedding of `SELECT user_id FROM pr_reviewers WHERE pull_request_id = $1`:
the reviewer ids of a PR in row order. -/
def reviewersOf (s : DBState) (prID : String) : List String :=
  (s.prReviewers.filter (fun r => r.1 == prID)).map (fun r => r.2)

/-- The reviewer-selection query of `CreatePR`: active members of the team,
excluding the author, in roster order, `LIMIT 2`. -/
def assignedReviewersOnCreate (s : DBState) (teamName authorID : String) :
    List String :=
  ((rosterIDs s teamName).filter
    (fun uid => isActiveUser s uid && uid != authorID)).take 2

/-- Embedding of `SQLStore.CreatePR`.  The Go code inserts the `prs` row before looking up
the author's team (no surrounding transaction); the lookup and the reviewer
selection read only `team_members` and `users`, which the insert does not
touch, so they are evaluated against `s`.  An author with no `users` row
would make the insert fail on the `prs.author_id` foreign key
(`FKViolation`); an author with a row but no team membership leaves the
inserted PR row behind and returns `AuthorTeamNotFound`. -/
def createPR (s : DBState) (pr : PullRequest) :
    Except StoreError Unit × DBState :=
  if (findPR s pr.id).isSome then
    (Except.error StoreError.PRExists, s)
  else if (findUser s pr.authorID).isNone then
    (Except.error StoreError.FKViolation, s)
  else
    match teamOfUser s pr.authorID with
    | none =>
        (Except.error StoreError.AuthorTeamNotFound,
         { s with prs := s.prs ++ [pr] })
    | some teamName =>
        let sel := assignedReviewersOnCreate s teamName pr.authorID
        (Except.ok (),
         { s with
            prs := s.prs ++ [pr],
            prReviewers := s.prReviewers ++ sel.map (fun uid => (pr.id, uid)) })

/-- Embedding of the member upsert of `CreateTeam`: `INSERT ... ON CONFLICT
(user_id) DO UPDATE SET username = ..., is_active = ...`. -/
def upsertUser (users : List User) (m : User) : List User :=
  if users.any (fun u => u.userID == m.userID) then
    users.map (fun u =>
      if u.userID == m.userID then
        { u with username := m.username, isActive := m.isActive }
      else u)
  else users ++ [m]

/-- Embedding of the membership insert of `CreateTeam`: `INSERT ... ON
CONFLICT DO NOTHING` against the `(team_name, user_id)` primary key. -/
def addTeamMember (tms : List (String × String)) (row : String × String) :
    List (String × String) :=
  if tms.contains row then tms else tms ++ [row]

/-- Embedding of `SQLStore.CreateTeam`: reject an existing team name, insert
the team row, then upsert each member and link it to the team, in input
order. -/
def createTeam (s : DBState) (name : String) (members : List User) :
    Except StoreError Unit × DBState :=
  if s.teams.contains name then (Except.error StoreError.TeamExists, s)
  else
    let s2 := members.foldl
      (fun acc m =>
        { acc with
            users := upsertUser acc.users m,
            teamMembers := addTeamMember acc.teamMembers (name, m.userID) })
      { s with teams := s.teams ++ [name] }
    (Except.ok (), s2)

/-- Embedding of `SQLStore.SetUserActive`: the unconditional `UPDATE` of the
flag, then the lookup of the row (missing row: `NotFound`).  The team-name
decoration the Go code adds to the returned value is response formatting
and is not part of the stored state. -/
def setUserActive (s : DBState) (userID : String) (active : Bool) :
    Except StoreError User × DBState :=
  let s1 : DBState :=
    { s with users := s.users.map (fun u =>
        if u.userID == userID then { u with isActive := active } else u) }
  match findUser s1 userID with
  | none => (Except.error StoreError.NotFound, s1)
  | some u => (Except.ok u, s1)

/-- The result shape of `GetPR`: the PR row together with the reviewer user
records. -/
structure PRView where
  pr : PullRequest
  reviewers : List User
  deriving DecidableEq, Repr

/-- Embedding of `SQLStore.GetPR`: fetch the PR row, then resolve each reviewer id to its
user row, silently dropping ids whose lookup fails. -/
def getPR (s : DBState) (id : String) : Except StoreError PRView :=
  match findPR s id with
  | none => Except.error StoreError.NotFound
  | some pr =>
      Except.ok ⟨pr, (reviewersOf s id).filterMap (fun rid => findUser s rid)⟩

def setMerged (pr : PullRequest) (now : Nat) : PullRequest :=
  { pr with status := PRStatus.MERGED, mergedAt := some now }

/-- Embedding of `SQLStore.MergePR`: `NotFound` if the row is missing; the `UPDATE`
setting status and `merged_at` runs only when the status is not already
`MERGED`; both paths return `GetPR` of the resulting state. -/
def mergePR (s : DBState) (id : String) (now : Nat) :
    Except StoreError PRView × DBState :=
  match findPR s id with
  | none => (Except.error StoreError.NotFound, s)
  | some pr =>
      if pr.status == PRStatus.MERGED then
        (getPR s id, s)
      else
        let s1 : DBState :=
          { s with prs := s.prs.map (fun p => if p.id == id then setMerged p now else p) }
        (getPR s1 id, s1)

/-- Embedding of `UPDATE pr_reviewers SET user_id = newID WHERE
pull_request_id = prID AND user_id = oldID`: an in-place,
position-preserving row update. -/
def replaceReviewerRows (l : List (String × String)) (prID oldID newID : String) :
    List (String × String) :=
  l.map (fun r => if r.1 == prID && r.2 == oldID then (r.1, newID) else r)

/-- The replacement-candidate query shared by `ReassignReviewer` and
`findReplacementReviewer`: first active member of `teamName`, in roster
order, who is not `oldID` and not among `assigned`. -/
def candidateFor (users : List User) (tms : List (String × String))
    (assigned : List String) (teamName oldID : String) : Option String :=
  (((tms.filter (fun tm => tm.1 == teamName)).map (fun tm => tm.2)).filter
    (fun uid =>
      (match users.find? (fun u => u.userID == uid) with
       | some u => u.isActive
       | none => false)
      && uid != oldID && !(assigned.contains uid))).head?

/-- Embedding of `SQLStore.findReplacementReviewer` over the raw table
contents: team lookup of the old reviewer, then the candidate query; any
failure is `none`. -/
def findReplacementPure (users : List User) (tms : List (String × String))
    (assigned : List String) (oldID : String) : Option String :=
  match (tms.find? (fun tm => tm.2 == oldID)).map (fun tm => tm.1) with
  | none => none
  | some teamName => candidateFor users tms assigned teamName oldID

/-- Embedding of `SQLStore.findReplacementReviewer` applied to a state: it
reads only `users`, `team_members` and the reviewer rows of `prID`. -/
def findReplacementReviewer (s : DBState) (oldID prID : String) : Option String :=
  findReplacementPure s.users s.teamMembers (reviewersOf s prID) oldID

/-- Embedding of `SQLStore.ReassignReviewer`: existence check (`NotFound`), merged check
(`PRMerged`), assignment check (`NotAssigned`), team lookup of the old
reviewer (`NotFound`), candidate query (`NoCandidate`), then the in-place
row update; the trailing `GetPR` error is ignored by the Go code, which
would return the zero-value PR. -/
def reassignReviewer (s : DBState) (prID oldID : String) :
    Except StoreError (PRView × String) × DBState :=
  match findPR s prID with
  | none => (Except.error StoreError.NotFound, s)
  | some pr =>
      if pr.status == PRStatus.MERGED then
        (Except.error StoreError.PRMerged, s)
      else if !((reviewersOf s prID).contains oldID) then
        (Except.error StoreError.NotAssigned, s)
      else
        match teamOfUser s oldID with
        | none => (Except.error StoreError.NotFound, s)
        | some teamName =>
            match candidateFor s.users s.teamMembers (reviewersOf s prID) teamName oldID with
            | none => (Except.error StoreError.NoCandidate, s)
            | some newID =>
                let s1 : DBState :=
                  { s with prReviewers := replaceReviewerRows s.prReviewers prID oldID newID }
                match getPR s1 prID with
                | Except.ok v => (Except.ok (v, newID), s1)
                | Except.error _ =>
                    (Except.ok (⟨⟨"", "", "", PRStatus.OPEN, 0, none⟩, []⟩, newID), s1)

/-- The new reviewer id returned by a successful `ReassignReviewer` call,
`none` on any error. -/
def reassignOutcome (s : DBState) (prID oldID : String) : Option String :=
  match (reassignReviewer s prID oldID).1 with
  | Except.ok v => some v.2
  | Except.error _ => none

/-- The per-row effect of the bulk `UPDATE` of `MassDeactivate`: a user whose
id is among the team's member ids and outside the exclusion list is marked
inactive, every other row is untouched. -/
def deactivateRow (memberIDs excludeUsers : List String) (u : User) : User :=
  if memberIDs.contains u.userID && !(excludeUsers.contains u.userID)
  then { u with isActive := false } else u

/-- Step 1 of `MassDeactivate`: the bulk `UPDATE` marking every member of the
team outside the exclusion list inactive. -/
def deactivateTeam (s : DBState) (teamName : String) (excludeUsers : List String) :
    DBState :=
  { s with
      users := s.users.map (deactivateRow (rosterIDs s teamName) excludeUsers) }

/-- The `RowsAffected` count of the bulk update: the number of `users` rows
matched. -/
def deactivatedCount (s : DBState) (teamName : String) (excludeUsers : List String) :
    Nat :=
  (s.users.filter (fun u =>
    (rosterIDs s teamName).contains u.userID
      && !(excludeUsers.contains u.userID))).length

/-- Embedding of `SELECT DISTINCT` keeping the first occurrence of each row. -/
def dedupRows (l : List (String × String)) (seen : List (String × String)) :
    List (String × String) :=
  match l with
  | [] => []
  | x :: xs =>
      if seen.contains x then dedupRows xs seen
      else x :: dedupRows xs (x :: seen)

/-- Step 2's query: the distinct `(pull_request_id, user_id)` pairs where the
PR is `OPEN`, the reviewer's user row is inactive, and the reviewer belongs
to the affected team. -/
def affectedEntries (s : DBState) (teamName : String) : List (String × String) :=
  dedupRows (s.prReviewers.filter (fun r =>
    (match findPR s r.1 with
     | some pr => pr.status == PRStatus.OPEN
     | none => false)
    && (match findUser s r.2 with
        | some u => u.isActive == false
        | none => false)
    && (rosterIDs s teamName).contains r.2)) []

/-- The reassignment loop of `MassDeactivate`: for each affected pair, try
the replacement search; on success update the row in place and record the PR
id, otherwise skip silently. -/
def massReassignLoop :
    List (String × String) → DBState → List String → DBState × List String
  | [], s, acc => (s, acc)
  | (prID, revID) :: rest, s, acc =>
      match findReplacementReviewer s revID prID with
      | some newID =>
          massReassignLoop rest
            { s with prReviewers := replaceReviewerRows s.prReviewers prID revID newID }
            (acc ++ [prID])
      | none => massReassignLoop rest s acc

structure MassResult where
  deactivatedUsers : Nat
  reassignedPRs : List String
  deriving DecidableEq, Repr

/-- Embedding of `SQLStore.MassDeactivate`: bulk deactivation, then the silent
reassignment loop; the transaction commit never surfaces a per-PR error. -/
def massDeactivate (s : DBState) (teamName : String) (excludeUsers : List String) :
    Except StoreError MassResult × DBState :=
  let s1 := deactivateTeam s teamName excludeUsers
  let out := massReassignLoop (affectedEntries s1 teamName) s1 []
  (Except.ok ⟨deactivatedCount s teamName excludeUsers, out.2⟩, out.1)

instance {ε α : Type} [DecidableEq ε] [DecidableEq α] : DecidableEq (Except ε α)
  | Except.error a, Except.error b =>
      if h : a = b then Decidable.isTrue (by rw [h])
      else Decidable.isFalse (fun he => h (Except.error.inj he))
  | Except.error _, Except.ok _ => Decidable.isFalse (fun he => Except.noConfusion he)
  | Except.ok _, Except.error _ => Decidable.isFalse (fun he => Except.noConfusion he)
  | Except.ok a, Except.ok b =>
      if h : a = b then Decidable.isTrue (by rw [h])
      else Decidable.isFalse (fun he => h (Except.ok.inj he))

/-- Whether a storage result is a success. -/
def exceptIsOk {ε α : Type} : Except ε α → Bool
  | Except.ok _ => true
  | Except.error _ => false

/-!
Concrete states used by the counterexamples and witnesses below.  They match
the scenarios of the specification: a team `backend` whose roster is
enumerated `u1`, `u2`, `u3`, `u1` authoring pull request `pr1`.
-/

/-- Scenario C after the deactivation of `u2`: `u1` (the author) is the only
active member, `u2` is the sole, now inactive, reviewer of `pr1`. -/
def scenarioC : DBState :=
  { teams := ["backend"],
    users := [⟨"u1", "alice", true⟩, ⟨"u2", "bob", false⟩, ⟨"u3", "carol", false⟩],
    teamMembers := [("backend", "u1"), ("backend", "u2"), ("backend", "u3")],
    prs := [⟨"pr1", "fix", "u1", PRStatus.OPEN, 0, none⟩],
    prReviewers := [("pr1", "u2")] }

/-- A state whose only user `a` belongs to no team. -/
def teamlessAuthorState : DBState :=
  { teams := [], users := [⟨"a", "ann", true⟩], teamMembers := [],
    prs := [], prReviewers := [] }

/-- A pull request authored by the team-less user `a`. -/
def teamlessAuthorPR : PullRequest := ⟨"pr1", "fix", "a", PRStatus.OPEN, 0, none⟩

/-- Scenario A before PR creation: `u1`, `u2` active, `u3` inactive. -/
def scenarioA : DBState :=
  { teams := ["backend"],
    users := [⟨"u1", "alice", true⟩, ⟨"u2", "bob", true⟩, ⟨"u3", "carol", false⟩],
    teamMembers := [("backend", "u1"), ("backend", "u2"), ("backend", "u3")],
    prs := [], prReviewers := [] }

/-- The pull request of Scenario A, authored by `u1`. -/
def scenarioAPR : PullRequest := ⟨"pr1", "fix", "u1", PRStatus.OPEN, 0, none⟩

/-- An empty database: no PR exists at all. -/
def emptyState : DBState :=
  { teams := [], users := [], teamMembers := [], prs := [], prReviewers := [] }

/-- A state whose only PR `pr1` is already `MERGED`, with reviewer `u2`. -/
def mergedPRState : DBState :=
  { teams := ["backend"],
    users := [⟨"u1", "alice", true⟩, ⟨"u2", "bob", true⟩],
    teamMembers := [("backend", "u1"), ("backend", "u2")],
    prs := [⟨"pr1", "fix", "u1", PRStatus.MERGED, 0, some 3⟩],
    prReviewers := [("pr1", "u2")] }

/-- The merged PR row of `mergedPRState`. -/
def mergedPRRow : PullRequest := ⟨"pr1", "fix", "u1", PRStatus.MERGED, 0, some 3⟩

/-- A state with an `OPEN` PR `pr1` whose single reviewer is `u2`. -/
def openPRState : DBState :=
  { teams := ["backend"],
    users := [⟨"u1", "alice", true⟩, ⟨"u2", "bob", true⟩],
    teamMembers := [("backend", "u1"), ("backend", "u2")],
    prs := [⟨"pr1", "fix", "u1", PRStatus.OPEN, 0, none⟩],
    prReviewers := [("pr1", "u2")] }

/-- The open PR row of `openPRState`. -/
def openPRRow : PullRequest := ⟨"pr1", "fix", "u1", PRStatus.OPEN, 0, none⟩

/-- A state whose `OPEN` PR `pr1` is reviewed by `ghost`, a user that exists
but belongs to no team. -/
def ghostReviewerState : DBState :=
  { teams := ["backend"],
    users := [⟨"u1", "alice", true⟩, ⟨"ghost", "gus", true⟩],
    teamMembers := [("backend", "u1")],
    prs := [⟨"pr1", "fix", "u1", PRStatus.OPEN, 0, none⟩],
    prReviewers := [("pr1", "ghost")] }

/-- The open PR row of `ghostReviewerState`. -/
def ghostReviewerPRRow : PullRequest := ⟨"pr1", "fix", "u1", PRStatus.OPEN, 0, none⟩

/-- A four-member team, everyone active; `pr1` by `u1` is reviewed by `u2`
and `u3`. -/
def fourMemberState : DBState :=
  { teams := ["t1"],
    users := [⟨"u1", "a", true⟩, ⟨"u2", "b", true⟩, ⟨"u3", "c", true⟩, ⟨"u4", "d", true⟩],
    teamMembers := [("t1", "u1"), ("t1", "u2"), ("t1", "u3"), ("t1", "u4")],
    prs := [⟨"pr1", "fix", "u1", PRStatus.OPEN, 0, none⟩],
    prReviewers := [("pr1", "u2"), ("pr1", "u3")] }

/-- A two-member team, both active; `pr1` by `u1` is reviewed by `u2`.
Mass-deactivating `backend` with an empty exclusion list leaves no active
replacement for `u2`. -/
def noCandidateState : DBState :=
  { teams := ["backend"],
    users := [⟨"u1", "alice", true⟩, ⟨"u2", "bob", true⟩],
    teamMembers := [("backend", "u1"), ("backend", "u2")],
    prs := [⟨"pr1", "fix", "u1", PRStatus.OPEN, 0, none⟩],
    prReviewers := [("pr1", "u2")] }

/-!
Helper lemmas.
-/

/-- A status other than `MERGED` compares `false` against `MERGED`. -/
theorem status_beq_merged_false {st : PRStatus} (h : st ≠ PRStatus.MERGED) :
    (st == PRStatus.MERGED) = false := by
  cases st <;> simp_all

/-- Looking up a PR id after the in-place merge update finds the updated
row: the update preserves ids, so the first match is the same row,
transformed. -/
theorem find?_merge_update (l : List PullRequest) (id : String) (now : Nat) :
    (l.map (fun p => if p.id == id then setMerged p now else p)).find?
        (fun p => p.id == id)
      = (l.find? (fun p => p.id == id)).map
          (fun p => if p.id == id then setMerged p now else p) := by
  rw [List.find?_map]
  have hpred : ((fun (p : PullRequest) => p.id == id)
        ∘ (fun p => if p.id == id then setMerged p now else p))
      = (fun p => p.id == id) := by
    funext q
    by_cases h : q.id = id <;> simp [Function.comp, h, setMerged]
  rw [hpred]

/-- The reviewer ids of a PR after the in-place row update are the reviewer
ids before it with the old id replaced by the new one, position by
position. -/
theorem filter_map_replace (l : List (String × String)) (p old new : String) :
    ((replaceReviewerRows l p old new).filter (fun r => r.1 == p)).map (fun r => r.2)
      = ((l.filter (fun r => r.1 == p)).map (fun r => r.2)).map
          (fun u => if u == old then new else u) := by
  induction l with
  | nil => rfl
  | cons r t ih =>
      obtain ⟨a, b⟩ := r
      by_cases h1 : a = p
      · by_cases h2 : b = old
        · subst h1
          subst h2
          simpa [replaceReviewerRows, List.filter_cons] using ih
        · subst h1
          simpa [replaceReviewerRows, List.filter_cons, h2] using ih
      · simpa [replaceReviewerRows, List.filter_cons, h1] using ih

/-- After replacing the old id by a distinct new id, the old id is gone. -/
theorem not_mem_map_replace (R : List String) (old new : String) (hne : new ≠ old) :
    old ∉ R.map (fun u => if u == old then new else u) := by
  intro h
  obtain ⟨u, hu, he⟩ := List.mem_map.1 h
  by_cases h2 : u = old
  · rw [h2] at he
    simp at he
    exact hne he
  · simp [h2] at he

/-- Replacing an id occurring exactly once (the list has no duplicates) by a
fresh id makes the fresh id occur exactly once. -/
theorem count_map_replace (R : List String) (old new : String)
    (hnd : R.Nodup) (hold : old ∈ R) (hnew : new ∉ R) :
    (R.map (fun u => if u == old then new else u)).count new = 1 := by
  induction R with
  | nil => cases hold
  | cons a t ih =>
      by_cases ha : a = old
      · subst ha
        have hat : a ∉ t := (List.nodup_cons.1 hnd).1
        have hnt : new ∉ t := fun h => hnew (List.mem_cons_of_mem _ h)
        have hzero : new ∉ t.map (fun u => if u == a then new else u) := by
          intro h
          obtain ⟨u, hu, he⟩ := List.mem_map.1 h
          by_cases h2 : u = a
          · exact hat (h2 ▸ hu)
          · simp [h2] at he
            exact hnt (he ▸ hu)
        rw [List.map_cons, show (if (a == a) = true then new else a) = new by simp,
            List.count_cons_self, List.count_eq_zero.2 hzero]
      · have hold' : old ∈ t := by
          cases List.mem_cons.1 hold with
          | inl h => exact absurd h.symm ha
          | inr h => exact h
        have hnd' := (List.nodup_cons.1 hnd).2
        have hnew' : new ∉ t := fun h => hnew (List.mem_cons_of_mem _ h)
        have hanew : a ≠ new := fun h => hnew (h ▸ List.mem_cons_self a t)
        rw [List.map_cons, show (if (a == old) = true then new else a) = a by simp [ha],
            List.count_cons_of_ne (Ne.symm hanew)]
        exact ih hnd' hold' hnew'

/-- The reassignment loop never touches the `users` table. -/
theorem massReassignLoop_users (entries : List (String × String)) :
    ∀ (s : DBState) (acc : List String),
      ((massReassignLoop entries s acc).1).users = s.users := by
  induction entries with
  | nil => intro s acc; rfl
  | cons e rest ih =>
      intro s acc
      obtain ⟨prID, revID⟩ := e
      cases h : findReplacementReviewer s revID prID with
      | none => simpa [massReassignLoop, h] using ih s acc
      | some newID =>
          simpa [massReassignLoop, h] using
            ih { s with prReviewers := replaceReviewerRows s.prReviewers prID revID newID }
              (acc ++ [prID])

/-- The reassignment loop never touches the `team_members` table. -/
theorem massReassignLoop_teamMembers (entries : List (String × String)) :
    ∀ (s : DBState) (acc : List String),
      ((massReassignLoop entries s acc).1).teamMembers = s.teamMembers := by
  induction entries with
  | nil => intro s acc; rfl
  | cons e rest ih =>
      intro s acc
      obtain ⟨prID, revID⟩ := e
      cases h : findReplacementReviewer s revID prID with
      | none => simpa [massReassignLoop, h] using ih s acc
      | some newID =>
          simpa [massReassignLoop, h] using
            ih { s with prReviewers := replaceReviewerRows s.prReviewers prID revID newID }
              (acc ++ [prID])

/-- Deactivating a user row twice is the same as deactivating it once. -/
theorem deactivateRow_idem (memberIDs excludeUsers : List String) (u : User) :
    deactivateRow memberIDs excludeUsers (deactivateRow memberIDs excludeUsers u)
      = deactivateRow memberIDs excludeUsers u := by
  unfold deactivateRow
  by_cases h : u.userID ∈ memberIDs ∧ u.userID ∉ excludeUsers
  · simp [h]
  · simp [h]

/-- Activity lookups depend only on the `users` table. -/
theorem isActiveUser_congr {s s' : DBState} (h : s'.users = s.users) (uid : String) :
    isActiveUser s' uid = isActiveUser s uid := by
  simp [isActiveUser, findUser, h]

/-- Replacing reviewer rows of one PR leaves the reviewer ids of every other
PR untouched. -/
theorem filter_map_replace_other (l : List (String × String)) (q p old new : String)
    (hne : q ≠ p) :
    ((replaceReviewerRows l q old new).filter (fun r => r.1 == p)).map (fun r => r.2)
      = ((l.filter (fun r => r.1 == p)).map (fun r => r.2)) := by
  induction l with
  | nil => rfl
  | cons r t ih =>
      obtain ⟨a, b⟩ := r
      by_cases hap : a = p
      · have haq : ¬(p = q ∧ b = old) := fun hrep => hne hrep.1.symm
        simpa [replaceReviewerRows, List.filter_cons, hap, haq] using ih
      · by_cases hrep : a = q ∧ b = old
        · simpa [replaceReviewerRows, List.filter_cons, hrep, hap, hne] using ih
        · simpa [replaceReviewerRows, List.filter_cons, hrep, hap] using ih

/-- Rows surviving the first-occurrence `DISTINCT` come from the input. -/
theorem dedupRows_subset (l : List (String × String)) :
    ∀ (seen : List (String × String)) (x : String × String),
      x ∈ dedupRows l seen → x ∈ l := by
  induction l with
  | nil => intro seen x hx; cases hx
  | cons a t ih =>
      intro seen x hx
      unfold dedupRows at hx
      by_cases h : seen.contains a
      · rw [if_pos h] at hx
        exact List.mem_cons_of_mem _ (ih seen x hx)
      · rw [if_neg h] at hx
        cases List.mem_cons.1 hx with
        | inl he => exact he ▸ List.mem_cons_self a t
        | inr he => exact List.mem_cons_of_mem _ (ih (a :: seen) x he)

/-- A pair surviving the affected-reviewers query is a real reviewer link
whose user row is inactive. -/
theorem mem_affectedEntries (s : DBState) (T : String) (p r : String)
    (h : (p, r) ∈ affectedEntries s T) :
    (p, r) ∈ s.prReviewers ∧ isActiveUser s r = false := by
  have h1 : (p, r) ∈ s.prReviewers.filter (fun x =>
      (match findPR s x.1 with
       | some pr => pr.status == PRStatus.OPEN
       | none => false)
      && (match findUser s x.2 with
          | some u => u.isActive == false
          | none => false)
      && (rosterIDs s T).contains x.2) := dedupRows_subset _ _ _ h
  obtain ⟨hmem, hcond⟩ := List.mem_filter.1 h1
  refine ⟨hmem, ?_⟩
  simp only [Bool.and_eq_true] at hcond
  have h2 := hcond.1.2
  cases hu : findUser s r with
  | none => rw [hu] at h2; exact Bool.noConfusion h2
  | some u =>
      rw [hu] at h2
      have : u.isActive = false := by simpa using h2
      simp [isActiveUser, hu, this]

/-- A reviewer link makes its user id a member of the PR's reviewer ids. -/
theorem mem_reviewersOf_of_mem_rows (s : DBState) (p r : String)
    (h : (p, r) ∈ s.prReviewers) : r ∈ reviewersOf s p :=
  List.mem_map.2 ⟨(p, r), List.mem_filter.2 ⟨h, by simp⟩, rfl⟩

/-- If every affected entry of one PR fails the replacement search, the
reassignment loop returns an accumulator without that PR, leaves that PR's
reviewer ids unchanged, and leaves the users table unchanged. -/
theorem massReassignLoop_skip (p : String) (U : List User)
    (TM : List (String × String)) (R : List String) :
    ∀ (entries : List (String × String)) (s : DBState) (acc : List String),
      s.users = U → s.teamMembers = TM → reviewersOf s p = R →
      (∀ e ∈ entries, e.1 = p → findReplacementPure U TM R e.2 = none) →
      p ∉ acc →
      p ∉ (massReassignLoop entries s acc).2
        ∧ reviewersOf (massReassignLoop entries s acc).1 p = R
        ∧ ((massReassignLoop entries s acc).1).users = U := by
  intro entries
  induction entries with
  | nil =>
      intro s acc hu htm hr _ hacc
      exact ⟨hacc, hr, hu⟩
  | cons e rest ih =>
      intro s acc hu htm hr hfail hacc
      obtain ⟨q, rv⟩ := e
      by_cases hq : q = p
      · subst hq
        have hnone : findReplacementReviewer s rv q = none := by
          show findReplacementPure s.users s.teamMembers (reviewersOf s q) rv = none
          rw [hu, htm, hr]
          exact hfail (q, rv) (List.mem_cons_self _ _) rfl
        rw [show massReassignLoop ((q, rv) :: rest) s acc
            = massReassignLoop rest s acc by
          simp [massReassignLoop, hnone]]
        exact ih s acc hu htm hr
          (fun e he hep => hfail e (List.mem_cons_of_mem _ he) hep) hacc
      · cases hf : findReplacementReviewer s rv q with
        | none =>
            rw [show massReassignLoop ((q, rv) :: rest) s acc
                = massReassignLoop rest s acc by
              simp [massReassignLoop, hf]]
            exact ih s acc hu htm hr
              (fun e he hep => hfail e (List.mem_cons_of_mem _ he) hep) hacc
        | some newID =>
            rw [show massReassignLoop ((q, rv) :: rest) s acc
                = massReassignLoop rest
                    { s with prReviewers := replaceReviewerRows s.prReviewers q rv newID }
                    (acc ++ [q]) by
              simp [massReassignLoop, hf]]
            refine ih _ _ hu htm ?_
              (fun e he hep => hfail e (List.mem_cons_of_mem _ he) hep) ?_
            · show ((replaceReviewerRows s.prReviewers q rv newID).filter
                  (fun r => r.1 == p)).map (fun r => r.2) = R
              rw [filter_map_replace_other s.prReviewers q p rv newID hq]
              exact hr
            · intro hx
              cases List.mem_append.1 hx with
              | inl hl => exact hacc hl
              | inr hrr =>
                  cases List.mem_singleton.1 hrr
                  exact hq rfl

/-!
Claim theorems.
-/

/-- C4: the preconditions of `ReassignReviewer` are checked in the stated
order, the first failing one determining the error: a missing PR gives
`NotFound`; an existing but `MERGED` PR gives `PRMerged`; an existing,
unmerged PR on which the old reviewer is not assigned gives `NotAssigned`. -/
theorem reassign_precondition_order (s : DBState) (prID oldID : String) :
    (findPR s prID = none →
      (reassignReviewer s prID oldID).1 = Except.error StoreError.NotFound)
    ∧ (∀ pr, findPR s prID = some pr → pr.status = PRStatus.MERGED →
      (reassignReviewer s prID oldID).1 = Except.error StoreError.PRMerged)
    ∧ (∀ pr, findPR s prID = some pr → pr.status ≠ PRStatus.MERGED →
      oldID ∉ reviewersOf s prID →
      (reassignReviewer s prID oldID).1 = Except.error StoreError.NotAssigned) := by
  refine ⟨?_, ?_, ?_⟩
  · intro h
    simp [reassignReviewer, h]
  · intro pr h hm
    simp [reassignReviewer, h, hm]
  · intro pr h hm hmem
    simp [reassignReviewer, h, status_beq_merged_false hm, hmem]

/-- Witness for C4: each of the three precondition failures observed on a
concrete state. -/
theorem reassign_precondition_order_witness :
    (reassignReviewer emptyState "pr1" "u2").1 = Except.error StoreError.NotFound
    ∧ (reassignReviewer mergedPRState "pr1" "u2").1 = Except.error StoreError.PRMerged
    ∧ (reassignReviewer openPRState "pr1" "u9").1 = Except.error StoreError.NotAssigned :=
  ⟨(reassign_precondition_order emptyState "pr1" "u2").1 (by decide),
   (reassign_precondition_order mergedPRState "pr1" "u2").2.1 mergedPRRow
     (by decide) (by decide),
   (reassign_precondition_order openPRState "pr1" "u9").2.2 openPRRow
     (by decide) (by decide) (by decide)⟩

/-- C6: reassigning any reviewer on a `MERGED` PR fails with `PRMerged` and
returns the state entirely unchanged. -/
theorem reassign_on_merged_unchanged (s : DBState) (prID oldID : String)
    (pr : PullRequest) (h : findPR s prID = some pr)
    (hm : pr.status = PRStatus.MERGED) :
    reassignReviewer s prID oldID = (Except.error StoreError.PRMerged, s) := by
  simp [reassignReviewer, h, hm]

/-- Witness for C6: a merged PR on a concrete state. -/
theorem reassign_on_merged_unchanged_witness :
    reassignReviewer mergedPRState "pr1" "u2"
      = (Except.error StoreError.PRMerged, mergedPRState) :=
  reassign_on_merged_unchanged mergedPRState "pr1" "u2" mergedPRRow
    (by decide) (by decide)

/-- C10: when the PR exists, is not merged and the old reviewer is assigned,
but the old reviewer belongs to no team, `ReassignReviewer` fails with
`NotFound` (not `NoCandidate`) and leaves the state unchanged. -/
theorem reassign_teamless_old_reviewer (s : DBState) (prID oldID : String)
    (pr : PullRequest) (h : findPR s prID = some pr)
    (hm : pr.status ≠ PRStatus.MERGED)
    (hmem : oldID ∈ reviewersOf s prID)
    (hteam : teamOfUser s oldID = none) :
    reassignReviewer s prID oldID = (Except.error StoreError.NotFound, s) := by
  simp [reassignReviewer, h, status_beq_merged_false hm, hmem, hteam]

/-- Witness for C10: reviewer `ghost` exists but has no team row. -/
theorem reassign_teamless_old_reviewer_witness :
    reassignReviewer ghostReviewerState "pr1" "ghost"
      = (Except.error StoreError.NotFound, ghostReviewerState) :=
  reassign_teamless_old_reviewer ghostReviewerState "pr1" "ghost"
    ghostReviewerPRRow (by decide) (by decide) (by decide) (by decide)

/-- C7: merging is idempotent.  After a successful merge, merging the same
PR again, at any later time, returns the very same result and the very same
state: the `OPEN → MERGED` transition happens at most once and `merged_at`
keeps the value of the first merge. -/
theorem merge_idempotent (s : DBState) (id : String) (t1 t2 : Nat)
    (h : exceptIsOk (mergePR s id t1).1 = true) :
    mergePR (mergePR s id t1).2 id t2 = mergePR s id t1 := by
  cases hf : findPR s id with
  | none => simp [mergePR, hf, exceptIsOk] at h
  | some pr =>
      by_cases hm : pr.status = PRStatus.MERGED
      · simp [mergePR, hf, hm]
      · have hf' : s.prs.find? (fun q => q.id == id) = some pr := hf
        have hid : (pr.id == id) = true := @List.find?_some _ (fun q => q.id == id) pr s.prs hf'
        have hpr : pr.id = id := by simpa using hid
        have e1 : mergePR s id t1
            = (getPR { s with prs := s.prs.map (fun p => if p.id == id then setMerged p t1 else p) } id,
               { s with prs := s.prs.map (fun p => if p.id == id then setMerged p t1 else p) }) := by
          unfold mergePR
          rw [hf]
          simp [status_beq_merged_false hm]
        have hf1 : findPR
            { s with prs := s.prs.map (fun p => if p.id == id then setMerged p t1 else p) } id
              = some (setMerged pr t1) := by
          show (s.prs.map (fun p => if p.id == id then setMerged p t1 else p)).find?
              (fun q => q.id == id) = some (setMerged pr t1)
          rw [find?_merge_update, hf']
          simp [hpr]
        have e2 : mergePR
            { s with prs := s.prs.map (fun p => if p.id == id then setMerged p t1 else p) } id t2
            = (getPR { s with prs := s.prs.map (fun p => if p.id == id then setMerged p t1 else p) } id,
               { s with prs := s.prs.map (fun p => if p.id == id then setMerged p t1 else p) }) := by
          unfold mergePR
          rw [hf1]
          simp [setMerged]
        rw [e1]
        exact e2

/-- Witness for C7: a concrete double merge. -/
theorem merge_idempotent_witness :
    mergePR (mergePR openPRState "pr1" 5).2 "pr1" 9 = mergePR openPRState "pr1" 5 :=
  merge_idempotent openPRState "pr1" 5 9 (by decide)

/-- C3: on every successful creation the persisted reviewer links of the new
PR are exactly the first at most two roster members, in roster enumeration
order, that are active and different from the author; the author is never
among them and at most two are assigned.  (The PR id is fresh on success, so
its reviewer-link list starts empty.) -/
theorem create_assigns_first_active (s : DBState) (pr : PullRequest)
    (teamName : String)
    (hok : (createPR s pr).1 = Except.ok ())
    (hteam : teamOfUser s pr.authorID = some teamName)
    (hfresh : reviewersOf s pr.id = []) :
    reviewersOf (createPR s pr).2 pr.id
        = assignedReviewersOnCreate s teamName pr.authorID
    ∧ pr.authorID ∉ reviewersOf (createPR s pr).2 pr.id
    ∧ (reviewersOf (createPR s pr).2 pr.id).length ≤ 2 := by
  cases h1 : (findPR s pr.id).isSome with
  | true => simp [createPR, h1] at hok
  | false =>
      cases h2 : (findUser s pr.authorID).isNone with
      | true => simp [createPR, h1, h2] at hok
      | false =>
          have hstate : (createPR s pr).2
              = { s with
                    prs := s.prs ++ [pr],
                    prReviewers := s.prReviewers
                      ++ (assignedReviewersOnCreate s teamName pr.authorID).map
                          (fun uid => (pr.id, uid)) } := by
            simp [createPR, h1, h2, hteam]
          have hrev : reviewersOf (createPR s pr).2 pr.id
              = assignedReviewersOnCreate s teamName pr.authorID := by
            rw [hstate]
            show ((s.prReviewers
                ++ (assignedReviewersOnCreate s teamName pr.authorID).map
                    (fun uid => (pr.id, uid))).filter
                  (fun r => r.1 == pr.id)).map (fun r => r.2)
              = assignedReviewersOnCreate s teamName pr.authorID
            rw [List.filter_append, List.map_append]
            have hold : ((s.prReviewers.filter (fun r => r.1 == pr.id)).map
                (fun r => r.2)) = [] := hfresh
            rw [hold]
            rw [List.filter_map, List.map_map]
            have hp : ((fun (r : String × String) => r.1 == pr.id)
                  ∘ (fun uid => (pr.id, uid))) = (fun _ => true) := by
              funext uid
              simp [Function.comp]
            rw [hp, List.filter_true]
            simp [Function.comp]
          refine ⟨hrev, ?_, ?_⟩
          · rw [hrev]
            intro hmem
            have hmem2 := List.mem_of_mem_take hmem
            have hpred := (List.mem_filter.1 hmem2).2
            simp at hpred
          · rw [hrev]
            exact List.length_take_le 2 _

/-- Witness for C3: Scenario A, where only `u2` qualifies. -/
theorem create_assigns_first_active_witness :
    reviewersOf (createPR scenarioA scenarioAPR).2 "pr1"
        = assignedReviewersOnCreate scenarioA "backend" "u1"
    ∧ "u1" ∉ reviewersOf (createPR scenarioA scenarioAPR).2 "pr1"
    ∧ (reviewersOf (createPR scenarioA scenarioAPR).2 "pr1").length ≤ 2 :=
  create_assigns_first_active scenarioA scenarioAPR "backend"
    (by decide) (by decide) (by decide)

/-- C2, counterexample to atomicity: creating a PR whose author `a` exists
but belongs to no team does return the `AuthorTeamNotFound` error kind, yet
the state is changed — the PR record itself has been persisted. -/
theorem create_teamless_author_not_atomic :
    (createPR teamlessAuthorState teamlessAuthorPR).1
        = Except.error StoreError.AuthorTeamNotFound
    ∧ (createPR teamlessAuthorState teamlessAuthorPR).2 ≠ teamlessAuthorState
    ∧ findPR (createPR teamlessAuthorState teamlessAuthorPR).2 "pr1"
        = some teamlessAuthorPR := by
  refine ⟨by decide, by decide, by decide⟩

/-- C2 as amended: for a fresh PR id and an author that exists as a user but
belongs to no team, `CreatePR` fails with `AuthorTeamNotFound` and persists
no reviewer links, but the PR record itself has already been inserted and
remains — the operation is not atomic and the state does change. -/
theorem create_teamless_author_effect (s : DBState) (pr : PullRequest)
    (hnew : findPR s pr.id = none)
    (hauthor : (findUser s pr.authorID).isSome = true)
    (hteam : teamOfUser s pr.authorID = none) :
    createPR s pr
      = (Except.error StoreError.AuthorTeamNotFound,
         { s with prs := s.prs ++ [pr] }) := by
  have h1 : (findPR s pr.id).isSome = false := by simp [hnew]
  have h2 : (findUser s pr.authorID).isNone = false := by
    cases hu : findUser s pr.authorID with
    | none => rw [hu] at hauthor; simp at hauthor
    | some u => simp [hu]
  simp [createPR, h1, h2, hteam]

/-- Witness for the amended C2. -/
theorem create_teamless_author_effect_witness :
    createPR teamlessAuthorState teamlessAuthorPR
      = (Except.error StoreError.AuthorTeamNotFound,
         { teamlessAuthorState with prs := teamlessAuthorState.prs ++ [teamlessAuthorPR] }) :=
  create_teamless_author_effect teamlessAuthorState teamlessAuthorPR
    (by decide) (by decide) (by decide)

/-- C1, counterexample: Scenario C is reachable from the empty database
(create the team, create the PR, deactivate `u2`), and on it — author `u1`
the only active team member, inactive `u2` the sole reviewer of the open
`pr1` — reassigning `old = u2` does not fail with `NoCandidate`: it succeeds
and installs the PR's own author `u1` as the new reviewer, breaking the
author-not-reviewer invariant. -/
theorem reassign_can_assign_author :
    (setUserActive
        (createPR
          (createTeam emptyState "backend"
            [⟨"u1", "alice", true⟩, ⟨"u2", "bob", true⟩, ⟨"u3", "carol", false⟩]).2
          ⟨"pr1", "fix", "u1", PRStatus.OPEN, 0, none⟩).2
        "u2" false).2 = scenarioC
    ∧ (reassignReviewer scenarioC "pr1" "u2").1 ≠ Except.error StoreError.NoCandidate
    ∧ reassignOutcome scenarioC "pr1" "u2" = some "u1"
    ∧ (findPR scenarioC "pr1").map PullRequest.authorID = some "u1"
    ∧ "u1" ∈ reviewersOf (reassignReviewer scenarioC "pr1" "u2").2 "pr1" := by
  refine ⟨by decide, by decide, by decide, by decide, by decide⟩

/-- C1 as amended: the reviewer set excludes the author at creation time
(the creation query filters the author out), but `ReassignReviewer`'s
candidate rule excludes only the old reviewer and the already-assigned
reviewers — the author is an eligible candidate, and in Scenario C the
reassignment of `u2` succeeds with the author `u1` instead of failing with
`NoCandidate`. -/
theorem author_excluded_only_at_creation :
    (∀ (s : DBState) (teamName authorID : String),
      authorID ∉ assignedReviewersOnCreate s teamName authorID)
    ∧ reassignOutcome scenarioC "pr1" "u2" = some "u1"
    ∧ (findPR scenarioC "pr1").map PullRequest.authorID = some "u1"
    ∧ reviewersOf (reassignReviewer scenarioC "pr1" "u2").2 "pr1" = ["u1"] := by
  refine ⟨?_, by decide, by decide, by decide⟩
  intro s teamName authorID hmem
  have hmem2 := List.mem_of_mem_take hmem
  have hpred := (List.mem_filter.1 hmem2).2
  simp at hpred

/-- Witness for the amended C1: the creation-time exclusion at Scenario C's
roster. -/
theorem author_excluded_only_at_creation_witness :
    "u1" ∉ assignedReviewersOnCreate scenarioC "backend" "u1" :=
  author_excluded_only_at_creation.1 scenarioC "backend" "u1"

/-- C5: a successful reassignment replaces the old reviewer id by the new
one at the same position of the PR's reviewer sequence (all other reviewers
unchanged), keeps the reviewer count, removes the old id, and makes the new
id occur exactly once.  (The `pr_reviewers` primary key makes the reviewer
list of a PR duplicate-free, stated here as the `Nodup` hypothesis.) -/
theorem reassign_replaces_in_place (s : DBState) (prID oldID newID : String)
    (hok : reassignOutcome s prID oldID = some newID)
    (hnd : (reviewersOf s prID).Nodup) :
    reviewersOf (reassignReviewer s prID oldID).2 prID
        = (reviewersOf s prID).map (fun u => if u == oldID then newID else u)
    ∧ (reviewersOf (reassignReviewer s prID oldID).2 prID).length
        = (reviewersOf s prID).length
    ∧ oldID ∉ reviewersOf (reassignReviewer s prID oldID).2 prID
    ∧ (reviewersOf (reassignReviewer s prID oldID).2 prID).count newID = 1 := by
  cases hf : findPR s prID with
  | none => simp [reassignOutcome, reassignReviewer, hf] at hok
  | some pr =>
  cases hst : (pr.status == PRStatus.MERGED) with
  | true => simp [reassignOutcome, reassignReviewer, hf, hst] at hok
  | false =>
  cases hco : (reviewersOf s prID).contains oldID with
  | false =>
      have hm2 : oldID ∉ reviewersOf s prID := by simpa using hco
      simp [reassignOutcome, reassignReviewer, hf, hst, hm2] at hok
  | true =>
  have hm2 : oldID ∈ reviewersOf s prID := by simpa using hco
  cases ht : teamOfUser s oldID with
  | none => simp [reassignOutcome, reassignReviewer, hf, hst, hm2, ht] at hok
  | some teamName =>
  cases hc : candidateFor s.users s.teamMembers (reviewersOf s prID) teamName oldID with
  | none => simp [reassignOutcome, reassignReviewer, hf, hst, hm2, ht, hc] at hok
  | some nid =>
  have hnid : nid = newID := by
    cases hg : getPR
        { s with prReviewers := replaceReviewerRows s.prReviewers prID oldID nid } prID with
    | ok v => simpa [reassignOutcome, reassignReviewer, hf, hst, hm2, ht, hc, hg] using hok
    | error e => simpa [reassignOutcome, reassignReviewer, hf, hst, hm2, ht, hc, hg] using hok
  subst hnid
  have hstate : (reassignReviewer s prID oldID).2
      = { s with prReviewers := replaceReviewerRows s.prReviewers prID oldID nid } := by
    cases hg : getPR
        { s with prReviewers := replaceReviewerRows s.prReviewers prID oldID nid } prID with
    | ok v => simp [reassignReviewer, hf, hst, hm2, ht, hc, hg]
    | error e => simp [reassignReviewer, hf, hst, hm2, ht, hc, hg]
  have hc' : ((((s.teamMembers.filter (fun tm => tm.1 == teamName)).map
        (fun tm => tm.2)).filter
          (fun uid =>
            (match s.users.find? (fun u => u.userID == uid) with
             | some u => u.isActive
             | none => false)
            && uid != oldID && !((reviewersOf s prID).contains uid))).head?)
      = some nid := hc
  have hcand := List.mem_of_mem_head? (Option.mem_def.2 hc')
  have hpred := (List.mem_filter.1 hcand).2
  simp only [Bool.and_eq_true, bne_iff_ne, ne_eq, Bool.not_eq_true',
    Bool.not_eq_true] at hpred
  have hne : nid ≠ oldID := hpred.1.2
  have hnotin : nid ∉ reviewersOf s prID := by
    intro hx
    rw [(by simpa using hx : (reviewersOf s prID).contains nid = true)] at hpred
    exact Bool.noConfusion hpred.2
  have hold : oldID ∈ reviewersOf s prID := by simpa using hco
  have hmain : reviewersOf (reassignReviewer s prID oldID).2 prID
      = (reviewersOf s prID).map (fun u => if u == oldID then nid else u) := by
    rw [hstate]
    exact filter_map_replace s.prReviewers prID oldID nid
  refine ⟨hmain, ?_, ?_, ?_⟩
  · rw [hmain, List.length_map]
  · rw [hmain]
    exact not_mem_map_replace _ _ _ hne
  · rw [hmain]
    exact count_map_replace _ _ _ hnd hold hnotin

/-- C8: mass deactivation is idempotent on the users' activity state — for a
fixed team and exclusion list, running it twice leaves exactly the `users`
table (hence every active/inactive flag) that one run produces. -/
theorem massDeactivate_idempotent_on_activity (s : DBState) (T : String)
    (E : List String) :
    ((massDeactivate (massDeactivate s T E).2 T E).2).users
        = ((massDeactivate s T E).2).users
    ∧ ∀ uid, isActiveUser ((massDeactivate (massDeactivate s T E).2 T E).2) uid
        = isActiveUser ((massDeactivate s T E).2) uid := by
  have e2 : ∀ (w : DBState), (massDeactivate w T E).2
      = (massReassignLoop (affectedEntries (deactivateTeam w T E) T)
          (deactivateTeam w T E) []).1 := fun w => rfl
  have hmain : ((massDeactivate (massDeactivate s T E).2 T E).2).users
      = ((massDeactivate s T E).2).users := by
    have hu1 : ((massDeactivate s T E).2).users = (deactivateTeam s T E).users := by
      rw [e2 s]
      exact massReassignLoop_users _ _ _
    have htm1 : ((massDeactivate s T E).2).teamMembers = s.teamMembers := by
      rw [e2 s]
      rw [massReassignLoop_teamMembers _ _ _]
      rfl
    rw [e2 ((massDeactivate s T E).2)]
    rw [massReassignLoop_users _ _ _]
    show ((massDeactivate s T E).2).users.map
        (deactivateRow (rosterIDs (massDeactivate s T E).2 T) E)
      = ((massDeactivate s T E).2).users
    have hroster : rosterIDs (massDeactivate s T E).2 T = rosterIDs s T := by
      simp [rosterIDs, htm1]
    rw [hroster, hu1]
    show ((s.users.map (deactivateRow (rosterIDs s T) E)).map
        (deactivateRow (rosterIDs s T) E))
      = s.users.map (deactivateRow (rosterIDs s T) E)
    rw [List.map_map]
    rw [show (deactivateRow (rosterIDs s T) E) ∘ (deactivateRow (rosterIDs s T) E)
        = deactivateRow (rosterIDs s T) E from
      funext fun u => deactivateRow_idem _ _ u]
  exact ⟨hmain, fun uid => isActiveUser_congr hmain uid⟩

/-- C9: during mass deactivation, an affected open PR whose (sole affected)
inactive reviewer admits no replacement candidate is skipped silently: the
bulk call still returns a success value, the PR id is not in the returned
reassigned list, and the PR keeps its inactive reviewer. -/
theorem massDeactivate_silent_skip (s : DBState) (T : String) (E : List String)
    (p r : String)
    (hmem : (p, r) ∈ affectedEntries (deactivateTeam s T E) T)
    (huniq : ∀ e ∈ affectedEntries (deactivateTeam s T E) T, e.1 = p → e.2 = r)
    (hfail : findReplacementReviewer (deactivateTeam s T E) r p = none) :
    (∃ res : MassResult, (massDeactivate s T E).1 = Except.ok res
        ∧ p ∉ res.reassignedPRs)
    ∧ reviewersOf (massDeactivate s T E).2 p
        = reviewersOf (deactivateTeam s T E) p
    ∧ r ∈ reviewersOf (massDeactivate s T E).2 p
    ∧ isActiveUser (massDeactivate s T E).2 r = false := by
  have hfail2 : ∀ e ∈ affectedEntries (deactivateTeam s T E) T, e.1 = p →
      findReplacementPure (deactivateTeam s T E).users
        (deactivateTeam s T E).teamMembers
        (reviewersOf (deactivateTeam s T E) p) e.2 = none := by
    intro e he hep
    rw [huniq e he hep]
    exact hfail
  have hskip := massReassignLoop_skip p (deactivateTeam s T E).users
      (deactivateTeam s T E).teamMembers (reviewersOf (deactivateTeam s T E) p)
      (affectedEntries (deactivateTeam s T E) T) (deactivateTeam s T E) []
      rfl rfl rfl hfail2 (by simp)
  have e2 : (massDeactivate s T E).2
      = (massReassignLoop (affectedEntries (deactivateTeam s T E) T)
          (deactivateTeam s T E) []).1 := rfl
  have haff := mem_affectedEntries (deactivateTeam s T E) T p r hmem
  refine ⟨⟨⟨deactivatedCount s T E,
      (massReassignLoop (affectedEntries (deactivateTeam s T E) T)
        (deactivateTeam s T E) []).2⟩, rfl, hskip.1⟩, ?_, ?_, ?_⟩
  · rw [e2]
    exact hskip.2.1
  · rw [e2, hskip.2.1]
    exact mem_reviewersOf_of_mem_rows _ p r haff.1
  · rw [e2]
    rw [isActiveUser_congr hskip.2.2 r]
    exact haff.2

/-- Witness for C9: deactivating the whole two-member team `backend` leaves
no active replacement for reviewer `u2` of `pr1`, which is skipped. -/
theorem massDeactivate_silent_skip_witness :
    (∃ res : MassResult,
        (massDeactivate noCandidateState "backend" []).1 = Except.ok res
        ∧ "pr1" ∉ res.reassignedPRs)
    ∧ reviewersOf (massDeactivate noCandidateState "backend" []).2 "pr1"
        = reviewersOf (deactivateTeam noCandidateState "backend" []) "pr1"
    ∧ "u2" ∈ reviewersOf (massDeactivate noCandidateState "backend" []).2 "pr1"
    ∧ isActiveUser (massDeactivate noCandidateState "backend" []).2 "u2" = false :=
  massDeactivate_silent_skip noCandidateState "backend" [] "pr1" "u2"
    (by decide) (by decide) (by decide)

/-- Witness for C5: on the four-member team the reassignment of `u2`
succeeds (the chosen candidate is `u1`). -/
theorem reassign_replaces_in_place_witness :
    reviewersOf (reassignReviewer fourMemberState "pr1" "u2").2 "pr1"
        = (reviewersOf fourMemberState "pr1").map
            (fun u => if u == "u2" then "u1" else u)
    ∧ (reviewersOf (reassignReviewer fourMemberState "pr1" "u2").2 "pr1").length
        = (reviewersOf fourMemberState "pr1").length
    ∧ "u2" ∉ reviewersOf (reassignReviewer fourMemberState "pr1" "u2").2 "pr1"
    ∧ (reviewersOf (reassignReviewer fourMemberState "pr1" "u2").2 "pr1").count "u1" = 1 :=
  reassign_replaces_in_place fourMemberState "pr1" "u2" "u1" (by decide) (by decide)

end PRService
